import Mathlib

/-
Verification of the sqleasy wrapper: a promise-based convenience layer over an
embedded SQL engine, consisting of an argument normalizer (parseArgs/isSqlType),
a query-dispatch facade (Driver.run / exec / one / many / close / stream and the
narrow variant with get / all), a row-stream adapter (DatabaseStream), and an
initializer (sqleasy in index.ts).

The embedding translates each source function into a Lean definition.  The
external engine (the sqlite3 package) is a collaborator, not repository code:
each facade operation takes the engine primitive it invokes as a function
parameter, and the completion outcome that primitive reports is the function
value.  Promise settlement is made explicit: a Promise records the first
settlement (later settlements are ignored, as in JavaScript) together with how
many times resolve and how many times reject were invoked.
-/

namespace Sqleasy

/-- Engine-reported failures are opaque to this layer; a numeric code suffices. -/
abbrev DbErr := Nat

/-- Rows are opaque to this layer; a numeric code suffices. -/
abbrev Row := Nat

/-- The value of an object field named text, as the isSqlType check sees it:
either a JavaScript string or a present-but-non-string value. -/
inductive TextField where
  | fstr (s : String)
  | fother

/-- JavaScript values as the normalizer and the exec boundary check inspect
them: null, undefined, a number, a string, or an object carrying an optional
text field and an optional values field. -/
inductive JsVal where
  | jnull
  | jundefined
  | jnum (n : Int)
  | jstr (s : String)
  | jobj (text : Option TextField) (values : Option (List JsVal))

/-- A canonical parameterized query, as produced by parseArgs and as consumed by
the engine primitives (the pair db.run / db.get / db.all receive: the SQL text
and the positional values).  Also models the Sql objects of sql-template-tag,
which expose exactly these two fields. -/
structure Query where
  text : String
  values : List JsVal

/-- isSqlType from the generalized Driver: sql == null is rejected, then the
input must be an object with a text field whose value is a string. -/
def isSqlType : JsVal → Bool
  | .jnull => false
  | .jundefined => false
  | .jobj (some (.fstr _)) _ => true
  | _ => false

/-- parseArgs from the generalized Driver: a string input yields that text with
the variadic arguments as values; an input passing isSqlType yields its text
field and its values field with the JavaScript default values-or-empty
(values || []); every other input throws Error with message
Invalid parameters. -/
def parseArgs (sql : JsVal) (values : List JsVal) : Except String Query :=
  match sql with
  | .jstr s => .ok { text := s, values := values }
  | .jobj (some (.fstr t)) vs => .ok { text := t, values := vs.getD [] }
  | _ => .error "Invalid parameters"

/-- Errors this layer can surface to a caller: the invalid-argument Error thrown
by parseArgs, the TypeError thrown by the exec boundary check, and an engine
error forwarded verbatim. -/
inductive JsError where
  | invalidParams
  | typeError
  | dbError (e : DbErr)

/-- A promise as observed through its executor: the first settlement (if any),
and how many times resolve and reject were invoked.  resolve and reject count
every invocation but only the first one determines the result, matching
JavaScript promise semantics. -/
structure Promise (α : Type) where
  result : Option (Except DbErr α)
  resolveCalls : Nat
  rejectCalls : Nat

/-- A freshly created, pending promise. -/
def newPromise {α : Type} : Promise α := { result := none, resolveCalls := 0, rejectCalls := 0 }

/-- Invoking resolve: the invocation is counted; the result is recorded only if
the promise is still pending. -/
def Promise.resolve {α : Type} (p : Promise α) (v : α) : Promise α :=
  { p with resolveCalls := p.resolveCalls + 1,
           result := match p.result with
                     | some r => some r
                     | none => some (.ok v) }

/-- Invoking reject: the invocation is counted; the result is recorded only if
the promise is still pending. -/
def Promise.reject {α : Type} (p : Promise α) (e : DbErr) : Promise α :=
  { p with rejectCalls := p.rejectCalls + 1,
           result := match p.result with
                     | some r => some r
                     | none => some (.error e) }

/-- The completion callback shared by run, one, exec and close:
if (err) reject(err) else resolve(value). -/
def settleCallback {α : Type} (p : Promise α) (outcome : Except DbErr α) : Promise α :=
  match outcome with
  | .error e => p.reject e
  | .ok v => p.resolve v

/-- Driver.run of the generalized variant: normalize the arguments (parseArgs
throws synchronously on bad shape), then issue one db.run request with the
query text and values; the callback rejects with the engine error or resolves
with the last inserted row id.  The first component of the ok pair is the list
of engine requests issued. -/
def Driver.run (sql : JsVal) (values : List JsVal)
    (engineRun : Query → Except DbErr Nat) :
    Except JsError (List Query × Promise Nat) :=
  match parseArgs sql values with
  | .error _ => .error .invalidParams
  | .ok query => .ok ([query], settleCallback newPromise (engineRun query))

/-- Driver.one of the generalized variant: normalize, then issue one db.get
request; the callback rejects with the engine error or resolves with the row,
which is absent (undefined) when no row matches. -/
def Driver.one (sql : JsVal) (values : List JsVal)
    (engineGet : Query → Except DbErr (Option Row)) :
    Except JsError (List Query × Promise (Option Row)) :=
  match parseArgs sql values with
  | .error _ => .error .invalidParams
  | .ok query => .ok ([query], settleCallback newPromise (engineGet query))

/-- Driver.many of the generalized variant: normalize, then issue one db.all
request; the callback rejects with the engine error or resolves with
rows ?? [] (the engine may report a nullish rows value). -/
def Driver.many (sql : JsVal) (values : List JsVal)
    (engineAll : Query → Except DbErr (Option (List Row))) :
    Except JsError (List Query × Promise (List Row)) :=
  match parseArgs sql values with
  | .error _ => .error .invalidParams
  | .ok query =>
      .ok ([query],
           match engineAll query with
           | .error e => Promise.reject newPromise e
           | .ok rows => Promise.resolve newPromise (rows.getD []))

/-- JavaScript loose equality against null: true exactly for null and
undefined. -/
def jsLooseEqNull : JsVal → Bool
  | .jnull => true
  | .jundefined => true
  | _ => false

/-- args.at(0): the first element, or undefined when the list is empty. -/
def atZero (args : List JsVal) : JsVal := args.headD .jundefined

/-- Driver.exec of the generalized variant: if (args.at(0) != null) a TypeError
is thrown before any engine request; otherwise one db.exec request is issued
with the statement text and the callback rejects with the engine error or
resolves with nothing.  The first component is the list of statement texts sent
to the engine (empty when the boundary check throws). -/
def Driver.exec (text : String) (args : List JsVal)
    (engineExec : String → Except DbErr Unit) :
    List String × Except JsError (Promise Unit) :=
  if jsLooseEqNull (atZero args) = false then ([], .error .typeError)
  else ([text], .ok (settleCallback newPromise (engineExec text)))

/-- Driver.close (identical in both variants): one db.close request; the
callback rejects with the engine error or resolves with nothing. -/
def Driver.close (engineClose : Except DbErr Unit) : List Unit × Promise Unit :=
  ([()], settleCallback newPromise engineClose)

/-- Driver.get of the narrow variant (src/Driver.ts): it accepts only a
pre-built query object and issues one db.get request with sql.text and
sql.values; the callback rejects with the engine error or resolves with the
row. -/
def NarrowDriver.get (sql : Query) (engineGet : Query → Except DbErr (Option Row)) :
    List Query × Promise (Option Row) :=
  ([{ text := sql.text, values := sql.values }],
   settleCallback newPromise (engineGet { text := sql.text, values := sql.values }))

/-- Driver.all of the narrow variant (src/Driver.ts): one db.all request with
sql.text and sql.values; the callback rejects with the engine error or resolves
with rows ?? []. -/
def NarrowDriver.all (sql : Query) (engineAll : Query → Except DbErr (Option (List Row))) :
    List Query × Promise (List Row) :=
  ([{ text := sql.text, values := sql.values }],
   match engineAll { text := sql.text, values := sql.values } with
   | .error e => Promise.reject newPromise e
   | .ok rows => Promise.resolve newPromise (rows.getD []))

/-- sqleasy from index.ts, executed against given engine outcomes: openErr is
the error the open callback receives (none on success), schema the optional
schema script, schemaExecErr the outcome of this.exec(schema) when a schema is
present.  Faithful to the callback bodies: the open callback rejects on err and
then still proceeds; with a schema, the exec callback rejects on err and then
unconditionally resolves; without a schema it resolves directly.  The second
component counts how many schema executions were issued. -/
def sqleasyInit (openErr : Option DbErr) (schema : Option String)
    (schemaExecErr : Option DbErr) : Promise Unit × Nat :=
  let p : Promise Unit := newPromise
  let p := match openErr with
    | some e => p.reject e
    | none => p
  match schema with
  | some _ =>
      let p := match schemaExecErr with
        | some e => p.reject e
        | none => p
      (p.resolve (), 1)
  | none => (p.resolve (), 0)

/-- One single-row fetch against a prepared statement reports an engine error,
a row, or no further rows (the undefined result). -/
inductive FetchResult where
  | ferr (e : DbErr)
  | frow (r : Row)
  | fdone
deriving DecidableEq

/-- A prepared statement: the outcome of the k-th single-row fetch issued
against it. -/
abbrev Stmt := Nat → FetchResult

/-- The states of the row-stream adapter: active (pulls reach the statement),
ended (the engine reported no further rows and the sequence completed), errored
(a fetch failed), destroyed (the caller stopped consumption). -/
inductive StreamStatus where
  | active
  | ended
  | errored
  | destroyed
deriving DecidableEq

/-- Observable state of one DatabaseStream: how many fetches were issued, the
currentRow counter, the rows delivered downstream in order, the status, how
many times stmt.finalize ran, and how many error events were delivered to the
consumer. -/
structure StreamState where
  fetched : Nat
  currentRow : Nat
  pushed : List Row
  status : StreamStatus
  finalizeCount : Nat
  errorCount : Nat
deriving DecidableEq

/-- State of a freshly constructed DatabaseStream. -/
def initState : StreamState :=
  { fetched := 0, currentRow := 0, pushed := [], status := .active,
    finalizeCount := 0, errorCount := 0 }

/-- DatabaseStream construction as invoked from Driver.stream (which always
passes the query text and values): the statement is prepared and the finalize
handler is attached to the end event.  The engine primitive prepare is modelled
from the spec (section 6): preparation either yields a statement handle or
fails with an engine error raised at the call site; the constructor installs no
handler for that failure. -/
def DatabaseStream.create (prepare : Query → Except DbErr Stmt)
    (text : String) (values : List JsVal) : Except DbErr (Stmt × StreamState) :=
  match prepare { text := text, values := values } with
  | .error e => .error e
  | .ok stmt => .ok (stmt, initState)

/-- Driver.stream of the generalized variant: normalize the arguments, then
construct a DatabaseStream over the prepared statement; a preparation failure
propagates to the caller as the engine error, before any row is pulled. -/
def Driver.stream (sql : JsVal) (values : List JsVal)
    (prepare : Query → Except DbErr Stmt) :
    Except JsError (Stmt × StreamState) :=
  match parseArgs sql values with
  | .error _ => .error .invalidParams
  | .ok query =>
      match DatabaseStream.create prepare query.text query.values with
      | .error e => .error (.dbError e)
      | .ok s => .ok s

/-- One execution of the body of DatabaseStream.read, i.e. the callback of
stmt.get.  On err: this.emit delivers the error to the consumer, then
this.destroy(err) destroys the stream and delivers the same error a second
time (Node emits the error passed to destroy), so errorCount rises by two; the
end event never fires on this path, so finalize does not run.  On an undefined
result: this.push(null) ends the sequence, the end event fires once the
consumer has drained it, and the end handler runs stmt.finalize.  On a row: the
currentRow counter increments and the row is pushed downstream; the stream
stays active. -/
def readStep (stmt : Stmt) (s : StreamState) : StreamState :=
  match stmt s.fetched with
  | .ferr _ =>
      { s with fetched := s.fetched + 1, status := .errored,
               errorCount := s.errorCount + 2 }
  | .fdone =>
      { s with fetched := s.fetched + 1, status := .ended,
               finalizeCount := s.finalizeCount + 1 }
  | .frow r =>
      { s with fetched := s.fetched + 1, currentRow := s.currentRow + 1,
               pushed := s.pushed ++ [r] }

/-- Consumer-side events that drive the adapter: a pull (Node invokes read only
while the stream is neither ended nor destroyed) and an explicit
stream.destroy() by the caller.  Caller destruction destroys the stream without
an error; the end event does not fire on destruction, so the finalize handler
attached to it does not run. -/
inductive StreamAction where
  | pull
  | callerDestroy
deriving DecidableEq

/-- One consumer event applied to the adapter state. -/
def streamStep (stmt : Stmt) (s : StreamState) : StreamAction → StreamState
  | .pull => if s.status = .active then readStep stmt s else s
  | .callerDestroy => if s.status = .active then { s with status := .destroyed } else s

/-- A sequence of consumer events applied from a given state. -/
def runFrom (stmt : Stmt) (s : StreamState) (acts : List StreamAction) : StreamState :=
  acts.foldl (streamStep stmt) s

/-- A sequence of consumer events applied to a freshly constructed stream. -/
def runStream (stmt : Stmt) (acts : List StreamAction) : StreamState :=
  runFrom stmt initState acts

/-- A statement over a fixed result set: the k-th fetch yields the k-th row,
and fetches past the end report no further rows. -/
def stmtOfRows (rows : List Row) : Stmt := fun i =>
  match rows[i]? with
  | some r => .frow r
  | none => .fdone

/-- getProcessedRowCount of DatabaseStream: the currentRow counter. -/
def getProcessedRowCount (s : StreamState) : Nat := s.currentRow

/-- A promise that was settled by exactly one executor invocation. -/
def SettledOnce {α : Type} (p : Promise α) : Prop :=
  p.resolveCalls + p.rejectCalls = 1 ∧ p.result.isSome = true

/-- The promise inside a facade result was settled exactly once, whenever the
call got past its synchronous argument checks. -/
def OkSettledOnce {β α : Type} (r : Except JsError (List β × Promise α)) : Prop :=
  match r with
  | .ok x => SettledOnce x.2
  | .error _ => True

/-- Same, for a facade result carrying the promise alone. -/
def OkSettled {α : Type} (r : Except JsError (Promise α)) : Prop :=
  match r with
  | .ok p => SettledOnce p
  | .error _ => True

/-- C7: the argument normalizer returns the canonical pair in both valid
shapes — a raw string keeps its variadic values, an object with a string text
field keeps its values sequence, defaulting to the empty sequence when the
field is absent — and throws the invalid-argument error on every other input
shape (null, undefined, a number, an object without a string text field).  As
a Lean function it is pure by construction, matching the no-side-effects part
of the contract. -/
theorem parseArgs_spec :
    (∀ (s : String) (vs : List JsVal),
        parseArgs (.jstr s) vs = .ok { text := s, values := vs }) ∧
    (∀ (t : String) (vs : Option (List JsVal)) (extra : List JsVal),
        parseArgs (.jobj (some (.fstr t)) vs) extra = .ok { text := t, values := vs.getD [] }) ∧
    (∀ vs, parseArgs .jnull vs = .error "Invalid parameters") ∧
    (∀ vs, parseArgs .jundefined vs = .error "Invalid parameters") ∧
    (∀ n vs, parseArgs (.jnum n) vs = .error "Invalid parameters") ∧
    (∀ vfield vs, parseArgs (.jobj none vfield) vs = .error "Invalid parameters") ∧
    (∀ vfield vs, parseArgs (.jobj (some .fother) vfield) vs = .error "Invalid parameters") :=
  ⟨fun _ _ => rfl, fun _ _ _ => rfl, fun _ => rfl, fun _ => rfl, fun _ _ => rfl,
   fun _ _ => rfl, fun _ _ => rfl⟩

/-- C8: shape equivalence of the normalizer — normalizing a raw string with the
values as variadic arguments produces exactly the output of normalizing the
pre-built object carrying that text and those values. -/
theorem parseArgs_shape_equiv (t : String) (vs : List JsVal) :
    parseArgs (.jstr t) vs = parseArgs (.jobj (some (.fstr t)) (some vs)) [] := rfl

/-- C10: on every pre-built parameterized query input, the generalized one and
many are behaviorally equivalent to the narrow get and all — the very same
engine request (text and values) is issued and the promise settles with the
same result or error for every engine outcome. -/
theorem one_many_subsume_get_all (t : String) (vs : List JsVal)
    (engineGet : Query → Except DbErr (Option Row))
    (engineAll : Query → Except DbErr (Option (List Row))) :
    Driver.one (.jobj (some (.fstr t)) (some vs)) [] engineGet =
      .ok (NarrowDriver.get { text := t, values := vs } engineGet) ∧
    Driver.many (.jobj (some (.fstr t)) (some vs)) [] engineAll =
      .ok (NarrowDriver.all { text := t, values := vs } engineAll) :=
  ⟨rfl, rfl⟩

/-- C3 counterexample: a call to exec with the extraneous positional argument
null does not fail at the call boundary — the loose args.at(0) != null check
lets null (and undefined) through, the engine request is issued and the
promise resolves.  The claim, which demands a TypeError for every call with
extraneous arguments, is therefore false on this input. -/
theorem exec_boundary_cex :
    [JsVal.jnull] ≠ ([] : List JsVal) ∧
    Driver.exec "x" [JsVal.jnull] (fun _ => .ok ()) =
      (["x"], .ok { result := some (.ok ()), resolveCalls := 1, rejectCalls := 0 }) :=
  ⟨List.cons_ne_nil _ _, rfl⟩

/-- C3 amended: exec rejects at the call boundary with a TypeError (distinct
from an engine error), issuing no engine request, exactly when the first
extraneous positional argument is neither null nor undefined; when the first
extra argument is nullish or there are no extra arguments, the check passes
and exactly one engine exec request with the statement text is issued, the
promise settling on the engine outcome. -/
theorem exec_boundary (text : String) (args : List JsVal)
    (engineExec : String → Except DbErr Unit) :
    (jsLooseEqNull (atZero args) = false →
        Driver.exec text args engineExec = ([], .error .typeError)) ∧
    (jsLooseEqNull (atZero args) = true →
        Driver.exec text args engineExec =
          ([text], .ok (settleCallback newPromise (engineExec text)))) := by
  constructor
  · intro h; simp [Driver.exec, h]
  · intro h; simp [Driver.exec, h]

/-- Witness for the amended C3 theorem at concrete inputs: a non-nullish extra
argument makes exec throw a TypeError with no engine request, and a call with
no extra arguments issues the single engine request. -/
theorem exec_boundary_w :
    Driver.exec "x" [JsVal.jstr "y"] (fun _ => .ok ()) = ([], .error .typeError) ∧
    Driver.exec "x" [] (fun _ => .ok ()) =
      (["x"], .ok (settleCallback newPromise (.ok ()))) :=
  ⟨(exec_boundary "x" [JsVal.jstr "y"] (fun _ => .ok ())).1 rfl,
   (exec_boundary "x" [] (fun _ => .ok ())).2 rfl⟩

/-- C4: when statement preparation fails in the engine, Driver.stream
propagates the engine error to the caller at stream-creation time, before any
row is pulled.  The engine primitive prepare is modelled from the spec
(section 6) as completing synchronously; the wrapper installs no handler, so
the failure reaches the caller unchanged. -/
theorem stream_prepare_propagates (sql : JsVal) (values : List JsVal)
    (prepare : Query → Except DbErr Stmt) (q : Query) (e : DbErr)
    (hq : parseArgs sql values = .ok q)
    (hp : prepare { text := q.text, values := q.values } = .error e) :
    Driver.stream sql values prepare = .error (.dbError e) := by
  simp [Driver.stream, hq, DatabaseStream.create, hp]

/-- Witness for C4 at a concrete input: a preparation failure with code 5
surfaces as that engine error at creation time. -/
theorem stream_prepare_propagates_w :
    Driver.stream (.jstr "boom") [] (fun _ => .error 5) = .error (.dbError 5) :=
  stream_prepare_propagates (.jstr "boom") [] (fun _ => .error 5)
    { text := "boom", values := [] } 5 rfl rfl

/-- C5: initializing with a schema executes the schema exactly once before the
connection is handed over, and the initialization promise settles with the
engine error of a failed schema execution — in that case it never resolves, so
no connect function is ever yielded.  The unconditional resolve that follows
the reject in the source is ignored because the promise is already settled. -/
theorem init_schema (s : String) (e0 : Option DbErr) :
    (sqleasyInit none (some s) e0).2 = 1 ∧
    (sqleasyInit none (some s) e0).1.result =
      some (match e0 with | some e => Except.error e | none => Except.ok ()) := by
  cases e0 <;> simp [sqleasyInit, Promise.resolve, Promise.reject, newPromise]

/-- C6 counterexample: on the schema-failure path of initialization both
reject and resolve are invoked (the source calls resolve unconditionally after
the conditional reject), so the claim that never both are invoked is false;
only the first invocation settles the promise, which therefore rejects with
the engine error. -/
theorem settle_both_cex :
    (sqleasyInit none (some "s") (some 3)).1.rejectCalls = 1 ∧
    (sqleasyInit none (some "s") (some 3)).1.resolveCalls = 1 ∧
    (sqleasyInit none (some "s") (some 3)).1.result = some (Except.error 3) :=
  ⟨rfl, rfl, rfl⟩

/-- Helper: the shared completion callback settles a fresh promise with exactly
one invocation. -/
lemma settleCallback_once {α : Type} (o : Except DbErr α) :
    SettledOnce (settleCallback newPromise o) := by
  cases o <;>
    simp [settleCallback, SettledOnce, Promise.resolve, Promise.reject, newPromise]

/-- C6 amended: every Driver operation that passes its synchronous argument
checks settles its promise exactly once, with exactly one resolve-or-reject
invocation; initialization always settles its promise exactly once as well
(the first invocation wins and later ones are ignored), but its failure paths
may invoke both reject and resolve, as the counterexample shows. -/
theorem settles_exactly_once :
    (∀ (sql : JsVal) (vs : List JsVal) (engineRun : Query → Except DbErr Nat),
        OkSettledOnce (Driver.run sql vs engineRun)) ∧
    (∀ (sql : JsVal) (vs : List JsVal) (engineGet : Query → Except DbErr (Option Row)),
        OkSettledOnce (Driver.one sql vs engineGet)) ∧
    (∀ (sql : JsVal) (vs : List JsVal) (engineAll : Query → Except DbErr (Option (List Row))),
        OkSettledOnce (Driver.many sql vs engineAll)) ∧
    (∀ (text : String) (args : List JsVal) (engineExec : String → Except DbErr Unit),
        OkSettled (Driver.exec text args engineExec).2) ∧
    (∀ (o : Except DbErr Unit), SettledOnce (Driver.close o).2) ∧
    (∀ (o : Option DbErr) (sc : Option String) (se : Option DbErr),
        (sqleasyInit o sc se).1.result.isSome = true ∧
        1 ≤ (sqleasyInit o sc se).1.resolveCalls + (sqleasyInit o sc se).1.rejectCalls) := by
  refine ⟨?_, ?_, ?_, ?_, ?_, ?_⟩
  · intro sql vs eng
    cases h : parseArgs sql vs with
    | error e => simp [Driver.run, h, OkSettledOnce]
    | ok q => simpa [Driver.run, h, OkSettledOnce] using settleCallback_once (eng q)
  · intro sql vs eng
    cases h : parseArgs sql vs with
    | error e => simp [Driver.one, h, OkSettledOnce]
    | ok q => simpa [Driver.one, h, OkSettledOnce] using settleCallback_once (eng q)
  · intro sql vs eng
    cases h : parseArgs sql vs with
    | error e => simp [Driver.many, h, OkSettledOnce]
    | ok q =>
        cases h2 : eng q with
        | error e =>
            simp [Driver.many, h, h2, OkSettledOnce, SettledOnce, Promise.reject, newPromise]
        | ok rows =>
            simp [Driver.many, h, h2, OkSettledOnce, SettledOnce, Promise.resolve, newPromise]
  · intro text args eng
    cases hx : jsLooseEqNull (atZero args) with
    | false => simp [Driver.exec, hx, OkSettled]
    | true => simpa [Driver.exec, hx, OkSettled] using settleCallback_once (eng text)
  · intro o
    exact settleCallback_once o
  · intro o sc se
    cases o <;> cases sc <;> cases se <;>
      simp [sqleasyInit, Promise.resolve, Promise.reject, newPromise]

/-- Helper: one step preserves the finalize bookkeeping — the finalize count is
one in the ended state and zero otherwise. -/
lemma step_finalize (stmt : Stmt) (s : StreamState) (a : StreamAction)
    (h1 : s.status = .ended → s.finalizeCount = 1)
    (h2 : s.status ≠ .ended → s.finalizeCount = 0) :
    ((streamStep stmt s a).status = .ended → (streamStep stmt s a).finalizeCount = 1) ∧
    ((streamStep stmt s a).status ≠ .ended → (streamStep stmt s a).finalizeCount = 0) := by
  cases a with
  | pull =>
      by_cases hs : s.status = .active
      · have hz : s.finalizeCount = 0 := h2 (by rw [hs]; intro hh; simp at hh)
        cases hrow : stmt s.fetched <;>
          simp [streamStep, hs, readStep, hrow, hz]
      · simpa [streamStep, hs] using ⟨h1, h2⟩
  | callerDestroy =>
      by_cases hs : s.status = .active
      · have hz : s.finalizeCount = 0 := h2 (by rw [hs]; intro hh; simp at hh)
        simp [streamStep, hs, hz]
      · simpa [streamStep, hs] using ⟨h1, h2⟩

/-- Helper: the finalize bookkeeping holds along any run. -/
lemma runFrom_finalize (stmt : Stmt) (acts : List StreamAction) :
    ∀ s : StreamState,
      (s.status = .ended → s.finalizeCount = 1) →
      (s.status ≠ .ended → s.finalizeCount = 0) →
      ((runFrom stmt s acts).status = .ended → (runFrom stmt s acts).finalizeCount = 1) ∧
      ((runFrom stmt s acts).status ≠ .ended → (runFrom stmt s acts).finalizeCount = 0) := by
  induction acts with
  | nil => intro s h1 h2; exact ⟨h1, h2⟩
  | cons a rest ih =>
      intro s h1 h2
      have h := step_finalize stmt s a h1 h2
      exact ih (streamStep stmt s a) h.1 h.2

/-- C1 counterexample: caller destruction of a fresh stream reaches the
destroyed state with zero finalizations, and a failed fetch reaches the
errored state likewise without releasing the statement — the finalize handler
is attached only to the end event, so the claimed exactly-once finalization on
the destroyed path, and the claimed release on the failure path, are false. -/
theorem stream_destroy_cex :
    (runStream (stmtOfRows [0]) [.callerDestroy]).status = .destroyed ∧
    (runStream (stmtOfRows [0]) [.callerDestroy]).finalizeCount = 0 ∧
    (runStream (fun _ => .ferr 3) [.pull]).status = .errored ∧
    (runStream (fun _ => .ferr 3) [.pull]).finalizeCount = 0 := by decide

/-- C1 amended: in every execution history of the row-stream adapter the
prepared statement is finalized exactly once on reaching the exhausted state,
and the finalize count never exceeds one, so double-finalization is
impossible; but reaching destroyed through caller destruction, or errored
through a failed fetch, leaves the statement unreleased. -/
theorem stream_finalize (stmt : Stmt) (acts : List StreamAction) :
    ((runStream stmt acts).status = .ended → (runStream stmt acts).finalizeCount = 1) ∧
    ((runStream stmt acts).status = .destroyed → (runStream stmt acts).finalizeCount = 0) ∧
    ((runStream stmt acts).status = .errored → (runStream stmt acts).finalizeCount = 0) ∧
    (runStream stmt acts).finalizeCount ≤ 1 := by
  unfold runStream
  have h := runFrom_finalize stmt acts initState
    (by intro hh; simp [initState] at hh) (fun _ => rfl)
  refine ⟨h.1, ?_, ?_, ?_⟩
  · intro hd; exact h.2 (by rw [hd]; intro hh; simp at hh)
  · intro he; exact h.2 (by rw [he]; intro hh; simp at hh)
  · by_cases he : (runFrom stmt initState acts).status = .ended
    · exact le_of_eq (h.1 he)
    · rw [h.2 he]; exact Nat.zero_le 1

/-- Witness for the amended C1 theorem at concrete runs reaching each terminal
state: exhaustion finalizes once, destruction and fetch failure finalize
zero times. -/
theorem stream_finalize_w :
    (runStream (stmtOfRows []) [.pull]).finalizeCount = 1 ∧
    (runStream (stmtOfRows []) [.callerDestroy]).finalizeCount = 0 ∧
    (runStream (fun _ => .ferr 0) [.pull]).finalizeCount = 0 :=
  ⟨(stream_finalize (stmtOfRows []) [.pull]).1 (by decide),
   (stream_finalize (stmtOfRows []) [.callerDestroy]).2.1 (by decide),
   (stream_finalize (fun _ => .ferr 0) [.pull]).2.2.1 (by decide)⟩

/-- Helper: one step preserves the error bookkeeping — the error count is two
in the errored state and zero otherwise. -/
lemma step_error (stmt : Stmt) (s : StreamState) (a : StreamAction)
    (h1 : s.status = .errored → s.errorCount = 2)
    (h2 : s.status ≠ .errored → s.errorCount = 0) :
    ((streamStep stmt s a).status = .errored → (streamStep stmt s a).errorCount = 2) ∧
    ((streamStep stmt s a).status ≠ .errored → (streamStep stmt s a).errorCount = 0) := by
  cases a with
  | pull =>
      by_cases hs : s.status = .active
      · have hz : s.errorCount = 0 := h2 (by rw [hs]; intro hh; simp at hh)
        cases hrow : stmt s.fetched <;>
          simp [streamStep, hs, readStep, hrow, hz]
      · simpa [streamStep, hs] using ⟨h1, h2⟩
  | callerDestroy =>
      by_cases hs : s.status = .active
      · have hz : s.errorCount = 0 := h2 (by rw [hs]; intro hh; simp at hh)
        simp [streamStep, hs, hz]
      · simpa [streamStep, hs] using ⟨h1, h2⟩

/-- Helper: the error bookkeeping holds along any run. -/
lemma runFrom_error (stmt : Stmt) (acts : List StreamAction) :
    ∀ s : StreamState,
      (s.status = .errored → s.errorCount = 2) →
      (s.status ≠ .errored → s.errorCount = 0) →
      ((runFrom stmt s acts).status = .errored → (runFrom stmt s acts).errorCount = 2) ∧
      ((runFrom stmt s acts).status ≠ .errored → (runFrom stmt s acts).errorCount = 0) := by
  induction acts with
  | nil => intro s h1 h2; exact ⟨h1, h2⟩
  | cons a rest ih =>
      intro s h1 h2
      have h := step_error stmt s a h1 h2
      exact ih (streamStep stmt s a) h.1 h.2

/-- Helper: the errored state is frozen — no later consumer event changes the
state, in particular no further fetch is issued. -/
lemma errored_frozen (stmt : Stmt) :
    ∀ (acts : List StreamAction) (s : StreamState),
      s.status = .errored → runFrom stmt s acts = s := by
  intro acts
  induction acts with
  | nil => intro s _; rfl
  | cons a rest ih =>
      intro s hs
      have hstep : streamStep stmt s a = s := by
        cases a <;> simp [streamStep, hs]
      show runFrom stmt (streamStep stmt s a) rest = s
      rw [hstep]; exact ih s hs

/-- C2 counterexample: a failed single-row fetch reaches the errored state with
two deliveries on the error channel — one from the explicit emit and one from
the destroy call carrying the same error — so the claimed exactly-once
delivery is false. -/
theorem stream_error_twice_cex :
    (runStream (fun _ => .ferr 7) [.pull]).status = .errored ∧
    (runStream (fun _ => .ferr 7) [.pull]).errorCount ≠ 1 ∧
    (runStream (fun _ => .ferr 7) [.pull]).errorCount = 2 := by decide

/-- C2 amended: when a single-row fetch fails the failure is delivered to the
consumer through the error channel exactly twice — once by the explicit emit
and once more by the destroy call — never zero times; runs that never error
deliver no error; and from the errored state the adapter state is frozen, so
no further fetch against the prepared statement is ever issued. -/
theorem stream_error_channel (stmt : Stmt) (acts : List StreamAction) :
    ((runStream stmt acts).status = .errored → (runStream stmt acts).errorCount = 2) ∧
    ((runStream stmt acts).status ≠ .errored → (runStream stmt acts).errorCount = 0) ∧
    (∀ (s : StreamState) (more : List StreamAction),
        s.status = .errored → runFrom stmt s more = s) := by
  have h := runFrom_error stmt acts initState
    (by intro hh; simp [initState] at hh) (fun _ => rfl)
  exact ⟨h.1, h.2, fun s more hs => errored_frozen stmt more s hs⟩

/-- Witness for the amended C2 theorem at concrete runs: an erroring fetch
yields two deliveries, an error-free run yields none, and further events after
the error leave the state unchanged. -/
theorem stream_error_channel_w :
    (runStream (fun _ => .ferr 7) [.pull]).errorCount = 2 ∧
    (runStream (fun _ => .ferr 7) []).errorCount = 0 ∧
    runFrom (fun _ => .ferr 7) (runStream (fun _ => .ferr 7) [.pull]) [.pull, .callerDestroy] =
      runStream (fun _ => .ferr 7) [.pull] :=
  ⟨(stream_error_channel (fun _ => .ferr 7) [.pull]).1 (by decide),
   (stream_error_channel (fun _ => .ferr 7) []).2.1 (by decide),
   (stream_error_channel (fun _ => .ferr 7) [.pull]).2.2
     (runStream (fun _ => .ferr 7) [.pull]) [.pull, .callerDestroy] (by decide)⟩

/-- Unfolding equation of runFrom on a first event. -/
lemma runFrom_cons (stmt : Stmt) (s : StreamState) (a : StreamAction)
    (acts : List StreamAction) :
    runFrom stmt s (a :: acts) = runFrom stmt (streamStep stmt s a) acts := rfl

/-- Helper: draining a statement over a fixed result set — starting from an
active state whose fetch position sits at the end of the already-consumed
prefix, the remaining rows are pushed in order, the counter advances by their
number, the stream ends and the statement is finalized once. -/
lemma drain_aux :
    ∀ (rest pre : List Row) (c pu fc ec : _),
      runFrom (stmtOfRows (pre ++ rest))
          (StreamState.mk pre.length c pu StreamStatus.active fc ec)
          (List.replicate (rest.length + 1) .pull) =
        StreamState.mk (pre.length + (rest.length + 1)) (c + rest.length) (pu ++ rest)
          StreamStatus.ended (fc + 1) ec := by
  intro rest
  induction rest with
  | nil =>
      intro pre c pu fc ec
      have hnone : pre[pre.length]? = none := List.getElem?_eq_none (Nat.le_refl _)
      have hdone : stmtOfRows pre pre.length = .fdone := by
        simp only [stmtOfRows, hnone]
      simp only [List.length_nil, List.replicate_succ, List.replicate_zero]
      show runFrom (stmtOfRows (pre ++ []))
          (StreamState.mk pre.length c pu StreamStatus.active fc ec) [.pull] = _
      simp [runFrom, streamStep, readStep, hdone]
  | cons r rs ih =>
      intro pre c pu fc ec
      have hidx : (pre ++ r :: rs)[pre.length]? = some r := by
        rw [List.getElem?_append_right (Nat.le_refl pre.length)]
        simp
      have hr : stmtOfRows (pre ++ r :: rs) pre.length = .frow r := by
        simp only [stmtOfRows, hidx]
      have hstep : streamStep (stmtOfRows (pre ++ r :: rs))
          (StreamState.mk pre.length c pu StreamStatus.active fc ec) .pull =
          StreamState.mk (pre.length + 1) (c + 1) (pu ++ [r]) StreamStatus.active fc ec := by
        simp [streamStep, readStep, hr]
      have hlen : (pre ++ [r]).length = pre.length + 1 := by simp
      have ih2 := ih (pre ++ [r]) (c + 1) (pu ++ [r]) fc ec
      rw [List.append_assoc, List.singleton_append, hlen] at ih2
      rw [List.length_cons, List.replicate_succ, runFrom_cons, hstep, ih2]
      congr 1 <;> first | rfl | omega | simp

/-- C9: consuming a stream over an engine result set of N rows to exhaustion
delivers exactly those N rows in engine order, the sequence completes without
any error delivery, and the processed-row counter reads N at exhaustion. -/
theorem stream_consume_all (rows : List Row) :
    (runStream (stmtOfRows rows) (List.replicate (rows.length + 1) .pull)).pushed = rows ∧
    (runStream (stmtOfRows rows) (List.replicate (rows.length + 1) .pull)).status = .ended ∧
    (runStream (stmtOfRows rows) (List.replicate (rows.length + 1) .pull)).errorCount = 0 ∧
    getProcessedRowCount
      (runStream (stmtOfRows rows) (List.replicate (rows.length + 1) .pull)) = rows.length := by
  have h := drain_aux rows [] 0 [] 0 0
  simp only [List.nil_append, List.length_nil, Nat.zero_add] at h
  unfold runStream
  rw [show initState = StreamState.mk 0 0 [] StreamStatus.active 0 0 from rfl, h]
  simp [getProcessedRowCount]

end Sqleasy
